import Mathlib

/-!
Shallow embedding of `core/runjob.go` from the ofelia repository: the
run-job pipeline (spec parsing, container provisioning, supervision and
reaping).  Go strings are Lean `String`s; `strings.Split` is modelled by
`goSplit` below (every separator used in this file — `","`, `":"`, `"="` —
is a single character).  The docker client is modelled as a record of
functions (`Engine`); time-varying inspect results are indexed by the
number of inspect calls already made during the run.  Each operation also
returns the ordered list of engine calls it issued, so that theorems can
speak about which calls were or were not attempted.
-/

/-- Splits a character list at every occurrence of `sep`, keeping empty
parts, exactly like Go `strings.Split` with a one-character separator.
The result is always non-empty. -/
def splitChars (sep : Char) : List Char → List (List Char)
  | [] => [[]]
  | c :: rest =>
    match splitChars sep rest with
    | [] => [[]]
    | part :: parts =>
      if c = sep then [] :: part :: parts
      else (c :: part) :: parts

/-- Go `strings.Split(s, sep)` for a one-character separator. -/
def goSplit (s : String) (sep : Char) : List String :=
  (splitChars sep s.data).map String.mk

theorem splitChars_ne_nil (sep : Char) (l : List Char) : splitChars sep l ≠ [] := by
  cases l with
  | nil => simp [splitChars]
  | cons c rest =>
    simp only [splitChars]
    cases splitChars sep rest with
    | nil => simp
    | cons part parts =>
      by_cases h : c = sep <;> simp [h]

theorem goSplit_length_pos (s : String) (sep : Char) : 0 < (goSplit s sep).length := by
  have := splitChars_ne_nil sep s.data
  simp only [goSplit, List.length_map]
  exact List.length_pos.mpr this

/-- `core.Volume`: fields `From`, `To`. -/
structure Volume where
  From : String
  To : String
deriving DecidableEq

/-- Errors produced by the run-job code.  Raw docker-client (and OS)
errors are strings; the job code either propagates them unchanged
(`rawError`) or wraps them in a `fmt.Errorf` message, modelled by the
dedicated constructors below, which keep the data the message carries. -/
inductive JobError where
  /-- a client or OS error returned unchanged by the job code -/
  | rawError (e : String)
  /-- `"error pulling image %q: %s"` -/
  | pullError (image : String) (e : String)
  /-- `"error creating exec: %s"` (wraps a CreateContainer failure) -/
  | createError (e : String)
  /-- `"error connecting container to network: %s"` -/
  | connectError (e : String)
  /-- `"error parsing env '%s' - required format is KEY=value"` -/
  | envEntryError (entry : String)
  /-- `"error parsing env files: %s"` (buildContainer wraps both the
  inline-env and the env-files parse errors with this same message) -/
  | wrapEnvFiles (e : JobError)
  /-- `"error parsing volume spec '%s' - required format is from_path:to_path"` -/
  | volumeEntryError (entry : String)
  /-- `"error parsing volumes - volume specs should be comma separated"` -/
  | volumeListEmpty
  /-- `"error parsing volumes: %s"` -/
  | wrapVolumes (e : JobError)
  /-- `ErrUnexpected` (exit code -1) -/
  | errUnexpected
  /-- `ErrMaxTimeRunning` (the 24 h ceiling expired) -/
  | errMaxTimeRunning
  /-- `"error non-zero exit code: %d"` -/
  | nonZeroExit (code : Int)
deriving DecidableEq

/-- `parseVolumeSpec`'s `for` loop over the comma-separated entries, with
the accumulated volume list.  An early `return` of the Go loop becomes a
non-recursive branch. -/
def parseVolumeLoop : List String → List Volume → Except JobError (List Volume)
  | [], volumes => .ok volumes
  | specs :: rest, volumes =>
    let spec := goSplit specs ':'
    if spec.length = 0 then parseVolumeLoop rest volumes
    else if spec.length ≠ 2 then .error (.volumeEntryError specs)
    else parseVolumeLoop rest (volumes ++ [⟨spec.headD "", spec.getD 1 ""⟩])

/-- `parseVolumeSpec(volumeSpec string) ([]Volume, error)`. -/
def parseVolumeSpec (volumeSpec : String) : Except JobError (List Volume) :=
  let volSpecList := goSplit volumeSpec ','
  if volSpecList.length = 0 then .error .volumeListEmpty
  else parseVolumeLoop volSpecList []

/-- `parseEnvSpecs`'s `for` loop over the entries, with the accumulated
env list.  Note the source's first condition is `len(spec) > 0`, which
`strings.Split` makes always true: the loop body `continue`s on every
entry. -/
def parseEnvLoop : List String → List String → Except JobError (List String)
  | [], envs => .ok envs
  | env :: rest, envs =>
    let spec := goSplit env '='
    if spec.length > 0 then parseEnvLoop rest envs
    else if spec.length > 2 then .error (.envEntryError env)
    else parseEnvLoop rest (envs ++ [env])

/-- `parseEnvSpecs(envSpecs []string) ([]string, error)`. -/
def parseEnvSpecs (envSpecs : List String) : Except JobError (List String) :=
  parseEnvLoop envSpecs []

/-- `parseEnvsFromFiles`'s `for` loop over the comma-separated file list.
`fs` models `readLines` (the file system); its error is returned
unchanged, like the `os.Open` error in the source. -/
def parseEnvsFromFilesLoop (fs : String → Except String (List String)) :
    List String → List String → Except JobError (List String)
  | [], envs => .ok envs
  | file :: rest, envs =>
    match fs file with
    | .error e => .error (.rawError e)
    | .ok lines =>
      match parseEnvSpecs lines with
      | .error e => .error e
      | .ok es => parseEnvsFromFilesLoop fs rest (envs ++ es)

/-- `parseEnvsFromFiles(envFiles string) ([]string, error)`. -/
def parseEnvsFromFiles (fs : String → Except String (List String))
    (envFiles : String) : Except JobError (List String) :=
  parseEnvsFromFilesLoop fs (goSplit envFiles ',') []

deriving instance DecidableEq for Except

example : goSplit "a,b" ',' = ["a", "b"] := by decide
example : goSplit "" ',' = [""] := by decide
example : parseVolumeSpec "/data:/data,/a:/b" = .ok [⟨"/data", "/data"⟩, ⟨"/a", "/b"⟩] := by decide
example : parseVolumeSpec "/data" = .error (.volumeEntryError "/data") := by decide
example : parseVolumeSpec "/data:" = .ok [⟨"/data", ""⟩] := by decide
example : parseEnvSpecs ["K1=v1", "K2=v2"] = .ok [] := by decide
example : parseEnvSpecs ["novalue"] = .ok [] := by decide

/-- `docker.State`: the two fields `watchContainer` reads. -/
structure DockerState where
  running : Bool
  exitCode : Int
deriving DecidableEq

/-- `docker.Container`: its id and its state (the fields this file uses). -/
structure Container where
  id : String
  state : DockerState
deriving DecidableEq

/-- `docker.Mount` (the fields set in `buildContainer`): `Source`,
`Destination`, `RW`. -/
structure Mount where
  source : String
  destination : String
  rw : Bool
deriving DecidableEq

/-- `docker.Config` (the fields set in `buildContainer`, in source
order): Image, AttachStdin, AttachStdout, AttachStderr, Tty, Cmd, User,
Env, Mounts.  The `NetworkingConfig` passed alongside is always the empty
struct and is omitted. -/
structure DockerConfig where
  image : String
  attachStdin : Bool
  attachStdout : Bool
  attachStderr : Bool
  tty : Bool
  cmd : List String
  user : String
  env : List String
  mounts : List Mount
deriving DecidableEq

/-- `docker.Network` (only its ID is used). -/
structure Network where
  id : String
deriving DecidableEq

/-- `docker.NetworkConnectionOptions` (only `Container` is set). -/
structure NetworkConnectionOptions where
  container : String
deriving DecidableEq

/-- `docker.RemoveContainerOptions`: ID, RemoveVolumes, Force.  The Go
zero value of the two booleans is `false`; `deleteContainer` sets only
the ID, so both stay `false` there. -/
structure RemoveContainerOptions where
  id : String
  removeVolumes : Bool
  force : Bool
deriving DecidableEq

/-- The docker-engine calls the run-job code can issue, with the
arguments that matter for the claims. -/
inductive EngineCall where
  | pullImage (image : String)
  | createContainer (config : DockerConfig)
  | listNetworks (name : String)
  | connectNetwork (networkId : String) (containerId : String)
  | startContainer (id : String)
  | inspectContainer (id : String)
  | removeContainer (opts : RemoveContainerOptions)
deriving DecidableEq

/-- The docker client (`j.Client`), modelled as a record of functions.
`inspectContainer` additionally takes the number of inspect calls already
made during the run, so that a container's observed state may change over
time; the other operations are single-shot in one run. `pullImage`
receives the raw image string (`buildPullOptions`, defined outside
`runjob.go`, derives the pull options from it; no claim depends on that
derivation). -/
structure Engine where
  pullImage : String → Except String Unit
  createContainer : DockerConfig → Except String Container
  filteredListNetworks : String → Except String (List Network)
  connectNetwork : String → NetworkConnectionOptions → Except String Unit
  startContainer : String → Except String Unit
  inspectContainer : String → Nat → Except String Container
  removeContainer : RemoveContainerOptions → Except String Unit

/-- `RunJob`: the job-spec fields used by `Run` and its helpers
(`BareJob` contributes `Command`). -/
structure RunJob where
  command : String
  user : String
  tty : Bool
  delete : Bool
  image : String
  network : String
  container : String
  volumes : String
  env : String
  envFiles : String

/-- The result of `buildContainer`, which in Go returns the pair
`(*docker.Container, error)`: success carries the created container;
failure carries the error and, on the connect-failure path, still carries
the created container. -/
inductive BuildResult where
  | ok (c : Container)
  | fail (c : Option Container) (e : JobError)
deriving DecidableEq

/-- `watchDuration = time.Millisecond * 100`, in milliseconds. -/
def watchDuration : Nat := 100

/-- `maxProcessDuration = time.Hour * 24`, in milliseconds. -/
def maxProcessDuration : Nat := 24 * 60 * 60 * 1000

/-- The `switch s.ExitCode` at the end of `watchContainer`: `0` returns
nil, `-1` returns `ErrUnexpected`, anything else the non-zero-exit
error. -/
def watchClassify (code : Int) : Except JobError Unit :=
  if code = 0 then .ok ()
  else if code = -1 then .error .errUnexpected
  else .error (.nonZeroExit code)

/-- Prepends an engine call to the trace component of a result pair. -/
def consTrace (x : α) (p : β × List α) : β × List α := (p.1, x :: p.2)

/-- The `for` loop of `watchContainer`.  Each iteration sleeps
`watchDuration`, adds it to the accumulated duration `r`, returns
`ErrMaxTimeRunning` once `r` exceeds `maxProcessDuration`, and otherwise
inspects the container (the `i`-th inspect call of the run); an inspect
error is returned unchanged, a non-running state breaks out into the
exit-code switch. -/
def watchLoop (E : Engine) (cid : String) (i : Nat) (r : Nat) :
    Except JobError Unit × List EngineCall :=
  if r + watchDuration > maxProcessDuration then (.error .errMaxTimeRunning, [])
  else
    match E.inspectContainer cid i with
    | .error e => (.error (.rawError e), [.inspectContainer cid])
    | .ok c =>
      if c.state.running then
        consTrace (.inspectContainer cid) (watchLoop E cid (i + 1) (r + watchDuration))
      else (watchClassify c.state.exitCode, [.inspectContainer cid])
termination_by maxProcessDuration - r
decreasing_by simp only [watchDuration] at *; omega

/-- `watchContainer(containerID string) error`.  `i₀` is the number of
inspect calls the run made before supervision started (0 when the
container was freshly built, 1 when it was resolved via
`getContainer`). -/
def watchContainer (E : Engine) (cid : String) (i₀ : Nat) :
    Except JobError Unit × List EngineCall :=
  watchLoop E cid i₀ 0

/-- `pullImage() error`. -/
def pullImage (j : RunJob) (E : Engine) : Except JobError Unit × List EngineCall :=
  match E.pullImage j.image with
  | .error e => (.error (.pullError j.image e), [.pullImage j.image])
  | .ok _ => (.ok (), [.pullImage j.image])

/-- `getContainer(id string)`: a single InspectContainer call (the `i`-th
inspect of the run), whose error is returned unchanged. -/
def getContainer (E : Engine) (id : String) (i : Nat) :
    Except JobError Container × List EngineCall :=
  match E.inspectContainer id i with
  | .error e => (.error (.rawError e), [.inspectContainer id])
  | .ok c => (.ok c, [.inspectContainer id])

/-- `startContainer`: `StartContainer(c.ID, &docker.HostConfig{})`; the
host config is always the empty struct and is omitted. -/
def startContainer (E : Engine) (c : Container) : Except JobError Unit × List EngineCall :=
  match E.startContainer c.id with
  | .error e => (.error (.rawError e), [.startContainer c.id])
  | .ok _ => (.ok (), [.startContainer c.id])

/-- The `for _, network := range networks` loop of `buildContainer`:
connect the container to each matched network, returning the wrapped
error of the first failing connect. -/
def connectLoop (E : Engine) (cid : String) :
    List Network → Option JobError × List EngineCall
  | [] => (none, [])
  | nw :: rest =>
    match E.connectNetwork nw.id ⟨cid⟩ with
    | .error e => (some (.connectError e), [.connectNetwork nw.id cid])
    | .ok _ =>
      match connectLoop E cid rest with
      | (r, tr) => (r, .connectNetwork nw.id cid :: tr)

/-- `buildContainer() (*docker.Container, error)`.  `fs` models
`readLines`; `tok` models `args.GetArgs` (an external shell tokenizer).
The env list is the inline entries followed by the file entries; the
mounts are the parsed volumes, all read-write.  A failure of
`FilteredListNetworks` is silently skipped (`if ... err == nil`); a
failing `ConnectNetwork` returns the created container together with the
error. -/
def buildContainer (j : RunJob) (E : Engine) (fs : String → Except String (List String))
    (tok : String → List String) : BuildResult × List EngineCall :=
  match (if j.env ≠ "" then parseEnvSpecs (goSplit j.env ',') else .ok []) with
  | .error e => (.fail none (.wrapEnvFiles e), [])
  | .ok envs₁ =>
  match (if j.envFiles ≠ "" then parseEnvsFromFiles fs j.envFiles else .ok []) with
  | .error e => (.fail none (.wrapEnvFiles e), [])
  | .ok envs₂ =>
  match (if j.volumes ≠ "" then parseVolumeSpec j.volumes else .ok []) with
  | .error e => (.fail none (.wrapVolumes e), [])
  | .ok vols =>
  let cfg : DockerConfig :=
    ⟨j.image, false, true, true, j.tty, tok j.command, j.user,
      envs₁ ++ envs₂, vols.map (fun v => ⟨v.From, v.To, true⟩)⟩
  match E.createContainer cfg with
  | .error e => (.fail none (.createError e), [.createContainer cfg])
  | .ok c =>
    if j.network ≠ "" then
      match E.filteredListNetworks j.network with
      | .error _ => (.ok c, [.createContainer cfg, .listNetworks j.network])
      | .ok networks =>
        match connectLoop E c.id networks with
        | (some e, tr) => (.fail (some c) e, .createContainer cfg :: .listNetworks j.network :: tr)
        | (none, tr) => (.ok c, .createContainer cfg :: .listNetworks j.network :: tr)
    else (.ok c, [.createContainer cfg])

/-- `deleteContainer(containerID string) error`: a no-op when `!j.Delete`,
otherwise `RemoveContainer` with only the ID set (RemoveVolumes and Force
keep their zero value `false`); the client error is returned unchanged. -/
def deleteContainer (j : RunJob) (E : Engine) (cid : String) :
    Except JobError Unit × List EngineCall :=
  if !j.delete then (.ok (), [])
  else
    match E.removeContainer ⟨cid, false, false⟩ with
    | .error e => (.error (.rawError e), [.removeContainer ⟨cid, false, false⟩])
    | .ok _ => (.ok (), [.removeContainer ⟨cid, false, false⟩])

/-- The tail of `Run` after the container is resolved: start it, watch
it, and — only when `j.Container == ""` — delete it.  `tr₀` is the trace
of the provisioning phase, `i₀` the number of inspect calls it made. -/
def runFrom (j : RunJob) (E : Engine) (c : Container) (i₀ : Nat)
    (tr₀ : List EngineCall) : Except JobError Unit × List EngineCall :=
  match startContainer E c with
  | (.error e, trs) => (.error e, tr₀ ++ trs)
  | (.ok _, trs) =>
    match watchContainer E c.id i₀ with
    | (.error e, trw) => (.error e, tr₀ ++ trs ++ trw)
    | (.ok _, trw) =>
      if j.container = "" then
        match deleteContainer j E c.id with
        | (res, trd) => (res, tr₀ ++ trs ++ trw ++ trd)
      else (.ok (), tr₀ ++ trs ++ trw)

/-- `Run(ctx *Context) error`: pull and build a fresh container when an
image is set and no existing container is named, otherwise resolve the
named (possibly empty) container identifier; then start, watch, and —
only when `j.Container == ""` — delete. -/
def Run (j : RunJob) (E : Engine) (fs : String → Except String (List String))
    (tok : String → List String) : Except JobError Unit × List EngineCall :=
  if j.image ≠ "" ∧ j.container = "" then
    match pullImage j E with
    | (.error e, tr) => (.error e, tr)
    | (.ok _, tr₁) =>
      match buildContainer j E fs tok with
      | (.fail _ e, tr₂) => (.error e, tr₁ ++ tr₂)
      | (.ok c, tr₂) => runFrom j E c 0 (tr₁ ++ tr₂)
  else
    match getContainer E j.container 0 with
    | (.error e, tr) => (.error e, tr)
    | (.ok c, tr) => runFrom j E c 1 tr

/-! ## Helper lemmas -/

theorem parseEnvLoop_drops_all (xs : List String) : ∀ acc, parseEnvLoop xs acc = .ok acc := by
  induction xs with
  | nil => intro acc; rfl
  | cons e rest ih =>
    intro acc
    have hpos := goSplit_length_pos e '='
    simp only [parseEnvLoop]
    rw [if_pos hpos]
    exact ih acc

theorem parseEnvSpecs_ok (xs : List String) : parseEnvSpecs xs = .ok [] :=
  parseEnvLoop_drops_all xs []

theorem parseEnvsFromFilesLoop_ok (fs : String → Except String (List String))
    (files : List String) : ∀ acc r, parseEnvsFromFilesLoop fs files acc = .ok r → r = acc := by
  induction files with
  | nil =>
    intro acc r h
    simp only [parseEnvsFromFilesLoop] at h
    exact (Except.ok.inj h).symm
  | cons f rest ih =>
    intro acc r h
    simp only [parseEnvsFromFilesLoop] at h
    cases hf : fs f with
    | error e => rw [hf] at h; simp at h
    | ok lines =>
      rw [hf] at h
      simp only [parseEnvSpecs_ok] at h
      have := ih (acc ++ []) r h
      simpa using this

theorem parseVolumeLoop_spec (entries : List String) : ∀ acc,
    parseVolumeLoop entries acc =
      match entries.find? (fun e => (goSplit e ':').length != 2) with
      | some bad => .error (.volumeEntryError bad)
      | none => .ok (acc ++ entries.map
          (fun e => ⟨(goSplit e ':').headD "", (goSplit e ':').getD 1 ""⟩)) := by
  induction entries with
  | nil => intro acc; simp [parseVolumeLoop]
  | cons e rest ih =>
    intro acc
    have hpos := goSplit_length_pos e ':'
    by_cases h : (goSplit e ':').length = 2
    · simp only [parseVolumeLoop]
      rw [if_neg (by omega), if_neg (by simpa using h)]
      rw [ih]
      rw [List.find?_cons_of_neg _ (by simpa using h)]
      cases List.find? (fun e => (goSplit e ':').length != 2) rest <;> simp
    · simp only [parseVolumeLoop]
      rw [if_neg (by omega), if_pos (by simpa using h)]
      rw [List.find?_cons_of_pos _ (by simpa using h)]

theorem connectLoop_calls (E : Engine) (cid : String) (nws : List Network) :
    ∀ call ∈ (connectLoop E cid nws).2, ∃ nid, call = .connectNetwork nid cid := by
  induction nws with
  | nil => intro call h; simp [connectLoop] at h
  | cons nw rest ih =>
    intro call h
    simp only [connectLoop] at h
    cases hc : E.connectNetwork nw.id ⟨cid⟩ with
    | error e =>
      rw [hc] at h
      simp at h
      exact ⟨nw.id, h⟩
    | ok u =>
      rw [hc] at h
      rcases hrec : connectLoop E cid rest with ⟨r, tr⟩
      rw [hrec] at h
      simp at h
      rcases h with h | h
      · exact ⟨nw.id, h⟩
      · exact ih call (by rw [hrec]; exact h)

theorem pullImage_trace (j : RunJob) (E : Engine) :
    (pullImage j E).2 = [.pullImage j.image] := by
  simp only [pullImage]
  cases E.pullImage j.image <;> rfl

theorem getContainer_trace (E : Engine) (id : String) (i : Nat) :
    (getContainer E id i).2 = [.inspectContainer id] := by
  simp only [getContainer]
  cases E.inspectContainer id i <;> rfl

theorem startContainer_trace (E : Engine) (c : Container) :
    (startContainer E c).2 = [.startContainer c.id] := by
  simp only [startContainer]
  cases E.startContainer c.id <;> rfl

theorem buildContainer_calls (j : RunJob) (E : Engine)
    (fs : String → Except String (List String)) (tok : String → List String) :
    ∀ call ∈ (buildContainer j E fs tok).2,
      (∃ cfg, call = .createContainer cfg) ∨ (∃ nm, call = .listNetworks nm) ∨
      (∃ a b, call = .connectNetwork a b) := by
  intro call hmem
  simp only [buildContainer] at hmem
  split at hmem
  · simp at hmem
  · split at hmem
    · simp at hmem
    · split at hmem
      · simp at hmem
      · rename_i vols heq3
        split at hmem
        · rename_i e heq4
          simp at hmem
          exact Or.inl ⟨_, hmem⟩
        · rename_i c heq4
          split at hmem
          · split at hmem
            · simp at hmem
              rcases hmem with hmem | hmem
              · exact Or.inl ⟨_, hmem⟩
              · exact Or.inr (Or.inl ⟨_, hmem⟩)
            · rename_i networks heq5
              split at hmem
              · rename_i e tr heq6
                simp at hmem
                rcases hmem with hmem | hmem | hmem
                · exact Or.inl ⟨_, hmem⟩
                · exact Or.inr (Or.inl ⟨_, hmem⟩)
                · rcases connectLoop_calls E c.id networks call
                    (by rw [heq6]; exact hmem) with ⟨nid, hh⟩
                  exact Or.inr (Or.inr ⟨nid, c.id, hh⟩)
              · rename_i tr heq6
                simp at hmem
                rcases hmem with hmem | hmem | hmem
                · exact Or.inl ⟨_, hmem⟩
                · exact Or.inr (Or.inl ⟨_, hmem⟩)
                · rcases connectLoop_calls E c.id networks call
                    (by rw [heq6]; exact hmem) with ⟨nid, hh⟩
                  exact Or.inr (Or.inr ⟨nid, c.id, hh⟩)
          · simp at hmem
            exact Or.inl ⟨_, hmem⟩

theorem watchLoop_calls (E : Engine) (cid : String) :
    ∀ (m i r : Nat), maxProcessDuration - r ≤ m →
    ∀ call ∈ (watchLoop E cid i r).2, call = .inspectContainer cid := by
  intro m
  induction m with
  | zero =>
    intro i r hm call hc
    rw [watchLoop] at hc
    rw [if_pos (by simp only [watchDuration, maxProcessDuration] at *; omega)] at hc
    simp at hc
  | succ m ih =>
    intro i r hm call hc
    rw [watchLoop] at hc
    by_cases hr : r + watchDuration > maxProcessDuration
    · rw [if_pos hr] at hc; simp at hc
    · rw [if_neg hr] at hc
      cases hi : E.inspectContainer cid i with
      | error e => rw [hi] at hc; simp at hc; exact hc
      | ok c =>
        rw [hi] at hc
        by_cases hrn : c.state.running = true
        · simp only [hrn, if_true, consTrace, List.mem_cons] at hc
          rcases hc with hc | hc
          · exact hc
          · exact ih (i + 1) (r + watchDuration)
              (by simp only [watchDuration, maxProcessDuration] at *; omega) call hc
        · simp only [hrn] at hc
          simp at hc
          exact hc

theorem watchContainer_calls (E : Engine) (cid : String) (i₀ : Nat) :
    ∀ call ∈ (watchContainer E cid i₀).2, call = .inspectContainer cid := by
  intro call hc
  exact watchLoop_calls E cid maxProcessDuration i₀ 0 (by omega) call hc

/-- A single step of the poll loop in which the container is already
observed stopped: the loop returns the exit-code classification after one
inspect. -/
theorem watchLoop_stop_now (E : Engine) (cid : String) (i r : Nat)
    (hr : r + watchDuration ≤ maxProcessDuration) (c : Container)
    (hc : E.inspectContainer cid i = .ok c) (hnr : c.state.running = false) :
    watchLoop E cid i r = (watchClassify c.state.exitCode, [.inspectContainer cid]) := by
  rw [watchLoop]
  rw [if_neg (by omega)]
  rw [hc]
  simp [hnr]

theorem runFrom_remove_iff (j : RunJob) (E : Engine) (c : Container) (i₀ : Nat)
    (tr₀ : List EngineCall) (h₀ : ∀ o, EngineCall.removeContainer o ∉ tr₀)
    (hok : (runFrom j E c i₀ tr₀).1 = .ok ()) :
    ((∃ o, EngineCall.removeContainer o ∈ (runFrom j E c i₀ tr₀).2) ↔
      (j.container = "" ∧ j.delete = true)) := by
  cases hs : E.startContainer c.id with
  | error e =>
    have hstart : startContainer E c = (.error (.rawError e), [.startContainer c.id]) := by
      simp [startContainer, hs]
    simp only [runFrom, hstart] at hok
    exact absurd hok (by simp)
  | ok u =>
    have hstart : startContainer E c = (.ok (), [.startContainer c.id]) := by
      simp [startContainer, hs]
    rcases hw : watchContainer E c.id i₀ with ⟨res, trw⟩
    have htrw : ∀ call ∈ trw, call = EngineCall.inspectContainer c.id := by
      intro call hcall
      exact watchContainer_calls E c.id i₀ call (by rw [hw]; exact hcall)
    cases res with
    | error e =>
      simp only [runFrom, hstart, hw] at hok
      exact absurd hok (by simp)
    | ok u2 =>
      by_cases hcont : j.container = ""
      · cases hdel : j.delete with
        | false =>
          have hd : deleteContainer j E c.id = (.ok (), []) := by
            simp [deleteContainer, hdel]
          have hno : ∀ o, EngineCall.removeContainer o ∉
              tr₀ ++ [EngineCall.startContainer c.id] ++ trw ++ ([] : List EngineCall) := by
            intro o ho
            rcases List.mem_append.mp ho with ho | ho
            · rcases List.mem_append.mp ho with ho | ho
              · rcases List.mem_append.mp ho with ho | ho
                · exact h₀ o ho
                · simp at ho
              · have := htrw _ ho; simp at this
            · simp at ho
          simp only [runFrom, hstart, hw, if_pos hcont, hd]
          constructor
          · rintro ⟨o, ho⟩
            exact absurd ho (hno o)
          · rintro ⟨h1, h2⟩
            exact absurd h2 (by simp)
        | true =>
          cases hrm : E.removeContainer ⟨c.id, false, false⟩ with
          | error e2 =>
            have hd : deleteContainer j E c.id =
                (.error (.rawError e2), [.removeContainer ⟨c.id, false, false⟩]) := by
              simp [deleteContainer, hdel, hrm]
            simp only [runFrom, hstart, hw, if_pos hcont, hd] at hok
            exact absurd hok (by simp)
          | ok u3 =>
            have hd : deleteContainer j E c.id =
                (.ok (), [.removeContainer ⟨c.id, false, false⟩]) := by
              simp [deleteContainer, hdel, hrm]
            simp only [runFrom, hstart, hw, if_pos hcont, hd]
            constructor
            · intro _
              exact ⟨hcont, trivial⟩
            · intro _
              refine ⟨⟨c.id, false, false⟩, ?_⟩
              apply List.mem_append.mpr; right
              simp
      · have hno : ∀ o, EngineCall.removeContainer o ∉
            tr₀ ++ [EngineCall.startContainer c.id] ++ trw := by
          intro o ho
          rcases List.mem_append.mp ho with ho | ho
          · rcases List.mem_append.mp ho with ho | ho
            · exact h₀ o ho
            · simp at ho
          · have := htrw _ ho; simp at this
        simp only [runFrom, hstart, hw, if_neg hcont]
        constructor
        · rintro ⟨o, ho⟩
          exact absurd ho (hno o)
        · rintro ⟨h1, h2⟩
          exact absurd h1 hcont

theorem runFrom_trace_prefix (j : RunJob) (E : Engine) (c : Container) (i₀ : Nat)
    (tr₀ : List EngineCall) :
    ∃ rest, (runFrom j E c i₀ tr₀).2 = tr₀ ++ rest := by
  rcases hs : startContainer E c with ⟨rs, trs⟩
  cases rs with
  | error e =>
    simp only [runFrom, hs]
    exact ⟨trs, rfl⟩
  | ok u =>
    rcases hw : watchContainer E c.id i₀ with ⟨res, trw⟩
    cases res with
    | error e =>
      simp only [runFrom, hs, hw]
      exact ⟨trs ++ trw, by rw [List.append_assoc]⟩
    | ok u2 =>
      by_cases hcont : j.container = ""
      · rcases hd : deleteContainer j E c.id with ⟨resd, trd⟩
        simp only [runFrom, hs, hw, if_pos hcont, hd]
        exact ⟨trs ++ trw ++ trd, by simp [List.append_assoc]⟩
      · simp only [runFrom, hs, hw, if_neg hcont]
        exact ⟨trs ++ trw, by rw [List.append_assoc]⟩

/-! ## Concrete jobs, engines and helpers used by witnesses -/

/-- An engine whose calls all succeed: containers are created and
inspected as already stopped with exit code 0. -/
def okEngine : Engine :=
  ⟨fun _ => .ok (), fun _ => .ok ⟨"built", ⟨false, 0⟩⟩, fun _ => .ok [],
   fun _ _ => .ok (), fun _ => .ok (), fun cid _ => .ok ⟨cid, ⟨false, 0⟩⟩,
   fun _ => .ok ()⟩

/-- A job spec that names an image, no existing container, and has
`delete = true` and no volume, env or network configuration. -/
def jobPlain : RunJob := ⟨"cmd", "root", false, true, "img", "", "", "", "", ""⟩

/-- A file system with no readable files (never consulted by the jobs
the witnesses use, which have empty `env-files`). -/
def noFs : String → Except String (List String) := fun _ => .error "no such file"

/-- A degenerate tokenizer standing in for `args.GetArgs` in concrete
witnesses (its behavior is irrelevant to every claim). -/
def oneTok : String → List String := fun s => [s]

/-! ## Claims -/

/-- C1: the spec's `parseEnvEntries` contract (each entry must contain at
least one `=`; entries kept in order; an entry with no `=` fails) is
violated by the source's `parseEnvSpecs`: because `strings.Split` always
returns at least one part, the loop skips every entry, so both the
example that should return its two entries and the example that should
fail instead return an empty list with no error.  This theorem evaluates
the embedded code at the claim's two inputs. -/
theorem parseEnvSpecs_drops_all_entries_eval :
    parseEnvSpecs ["K1=v1", "K2=v2"] = .ok [] ∧ parseEnvSpecs ["novalue"] = .ok [] := by
  decide

/-- C2 counterexample: the claim requires each volume entry to split into
exactly two NON-EMPTY parts and the whole parse to fail otherwise, but the
code never checks non-emptiness: `"/data:"` (empty container path) parses
successfully into a mount with an empty destination instead of failing. -/
theorem parseVolumeSpec_accepts_empty_part :
    parseVolumeSpec "/data:" = .ok [⟨"/data", ""⟩] := by decide

/-- C2 (amended): `parseVolumeSpec` splits the spec on `,`, splits each
entry on `:`, requires exactly two parts per entry (the parts may be
empty), fails the whole parse with a spec error identifying the first
offending entry otherwise, and returns the mounts in input order; in
particular `"/data:/data,/a:/b"` yields the two mounts in that order and
`"/data"` fails naming `"/data"`. -/
theorem parseVolumeSpec_characterization :
    (∀ s : String, parseVolumeSpec s =
      match (goSplit s ',').find? (fun e => (goSplit e ':').length != 2) with
      | some bad => .error (.volumeEntryError bad)
      | none => .ok ((goSplit s ',').map
          (fun e => ⟨(goSplit e ':').headD "", (goSplit e ':').getD 1 ""⟩))) ∧
    parseVolumeSpec "/data:/data,/a:/b" = .ok [⟨"/data", "/data"⟩, ⟨"/a", "/b"⟩] ∧
    parseVolumeSpec "/data" = .error (.volumeEntryError "/data") := by
  refine ⟨fun s => ?_, by decide, by decide⟩
  unfold parseVolumeSpec
  have hpos := goSplit_length_pos s ','
  rw [if_neg (by omega)]
  simpa using parseVolumeLoop_spec (goSplit s ',') []

/-- C6 counterexample: the claim says the Reaper's removal is issued as a
forced remove, but `deleteContainer` sets only the ID in
`RemoveContainerOptions`, so `Force` keeps its zero value `false`: on a
concrete owned, delete-enabled job the one removal issued carries
`force = false`. -/
theorem deleteContainer_not_forced_example :
    (deleteContainer jobPlain okEngine "c1").2 =
      [.removeContainer ⟨"c1", false, false⟩] := by decide

/-- C6 (amended): when the Reaper removes a container, the removal
request names exactly the supervised container and sets neither the
force flag nor volume removal — it relies on the container having
already stopped. -/
theorem deleteContainer_remove_options (j : RunJob) (E : Engine) (cid : String)
    (o : RemoveContainerOptions)
    (h : EngineCall.removeContainer o ∈ (deleteContainer j E cid).2) :
    o.id = cid ∧ o.removeVolumes = false ∧ o.force = false := by
  simp only [deleteContainer] at h
  cases hd : j.delete with
  | false => rw [hd] at h; simp at h
  | true =>
    rw [hd] at h
    simp only [Bool.not_true, Bool.false_eq_true, if_false] at h
    cases hr : E.removeContainer ⟨cid, false, false⟩ with
    | error e =>
      rw [hr] at h
      simp at h
      simp [h]
    | ok u =>
      rw [hr] at h
      simp at h
      simp [h]

/-- C6 witness: applying the amended theorem to the concrete removal
issued by `deleteContainer jobPlain okEngine "c1"`. -/
theorem deleteContainer_remove_options_witness :
    (⟨"c1", false, false⟩ : RemoveContainerOptions).force = false :=
  (deleteContainer_remove_options jobPlain okEngine "c1" ⟨"c1", false, false⟩
    (by decide)).2.2

/-- C10: `parseEnvSpecs` returns an empty list and no error on every
input (every entry, with or without `=`, is skipped), and consequently
every container-creation request `buildContainer` issues carries an empty
environment list. -/
theorem parseEnvSpecs_empty_env_to_create :
    (∀ xs : List String, parseEnvSpecs xs = .ok []) ∧
    (∀ (j : RunJob) (E : Engine) (fs : String → Except String (List String))
      (tok : String → List String) (cfg : DockerConfig),
      EngineCall.createContainer cfg ∈ (buildContainer j E fs tok).2 → cfg.env = []) := by
  refine ⟨parseEnvSpecs_ok, ?_⟩
  intro j E fs tok cfg hmem
  simp only [buildContainer] at hmem
  split at hmem
  · simp at hmem
  · rename_i envs₁ heq1
    have he1 : envs₁ = [] := by
      by_cases he : j.env = ""
      · rw [if_neg (by simp [he])] at heq1
        exact (Except.ok.inj heq1).symm
      · rw [if_pos he, parseEnvSpecs_ok] at heq1
        exact (Except.ok.inj heq1).symm
    split at hmem
    · simp at hmem
    · rename_i envs₂ heq2
      have he2 : envs₂ = [] := by
        by_cases hef : j.envFiles = ""
        · rw [if_neg (by simp [hef])] at heq2
          exact (Except.ok.inj heq2).symm
        · rw [if_pos hef] at heq2
          simp only [parseEnvsFromFiles] at heq2
          exact parseEnvsFromFilesLoop_ok fs (goSplit j.envFiles ',') [] envs₂ heq2
      split at hmem
      · simp at hmem
      · rename_i vols heq3
        split at hmem
        · rename_i e heq4
          simp at hmem
          simp [hmem, he1, he2]
        · rename_i c heq4
          split at hmem
          · split at hmem
            · simp at hmem
              simp [hmem, he1, he2]
            · rename_i networks heq5
              split at hmem
              · rename_i e tr heq6
                simp at hmem
                rcases hmem with hmem | hmem
                · simp [hmem, he1, he2]
                · rcases connectLoop_calls E c.id networks
                    (EngineCall.createContainer cfg) (by rw [heq6]; exact hmem)
                    with ⟨nid, hh⟩
                  simp at hh
              · rename_i tr heq6
                simp at hmem
                rcases hmem with hmem | hmem
                · simp [hmem, he1, he2]
                · rcases connectLoop_calls E c.id networks
                    (EngineCall.createContainer cfg) (by rw [heq6]; exact hmem)
                    with ⟨nid, hh⟩
                  simp at hh
          · simp at hmem
            simp [hmem, he1, he2]

theorem watchLoop_classifies (E : Engine) (cid : String) (n : Int) :
    ∀ (k i r : Nat), r + watchDuration * (k + 1) ≤ maxProcessDuration →
    (∀ j, j < k → ∃ c : Container,
      E.inspectContainer cid (i + j) = .ok c ∧ c.state.running = true) →
    (∃ c : Container, E.inspectContainer cid (i + k) = .ok c ∧
      c.state.running = false ∧ c.state.exitCode = n) →
    (watchLoop E cid i r).1 = watchClassify n := by
  intro k
  induction k with
  | zero =>
    intro i r hr hrun hstop
    rcases hstop with ⟨c, hc, hnr, hcode⟩
    rw [watchLoop]
    rw [if_neg (by simp only [watchDuration, maxProcessDuration] at *; omega)]
    rw [Nat.add_zero] at hc
    rw [hc]
    simp [hnr, hcode]
  | succ k ih =>
    intro i r hr hrun hstop
    rcases hrun 0 (Nat.succ_pos k) with ⟨c, hc, hrunning⟩
    rw [watchLoop]
    rw [if_neg (by simp only [watchDuration, maxProcessDuration] at *; omega)]
    rw [Nat.add_zero] at hc
    rw [hc]
    simp only [hrunning, if_true]
    have hih := ih (i + 1) (r + watchDuration)
      (by simp only [watchDuration, maxProcessDuration] at *; omega)
      (by
        intro j hj
        have := hrun (j + 1) (by omega)
        rwa [show i + (j + 1) = i + 1 + j by omega] at this)
      (by
        have := hstop
        rwa [show i + (k + 1) = i + 1 + k by omega] at this)
    simpa [consTrace] using hih

/-- C3: a supervised container observed no longer running before the
ceiling has its final exit code classified by `watchContainer`: `0`
yields success (`Succeeded`), `-1` yields `ErrUnexpected`
(`KilledOrUnexpected`), and any other integer `n` yields the non-zero
exit error carrying `n` (`FailedWithCode(n)`).  The first `k` inspects
see the container running, the `(k+1)`-th sees it stopped with exit code
`n`, and the elapsed-time bound keeps iteration `k` below the ceiling. -/
theorem watchContainer_classifies_exit (E : Engine) (cid : String) (i₀ k : Nat) (n : Int)
    (hk : watchDuration * (k + 1) ≤ maxProcessDuration)
    (hrun : ∀ j, j < k → ∃ c : Container,
      E.inspectContainer cid (i₀ + j) = .ok c ∧ c.state.running = true)
    (hstop : ∃ c : Container, E.inspectContainer cid (i₀ + k) = .ok c ∧
      c.state.running = false ∧ c.state.exitCode = n) :
    (watchContainer E cid i₀).1 =
      (if n = 0 then Except.ok () else if n = -1 then Except.error JobError.errUnexpected
       else Except.error (JobError.nonZeroExit n)) := by
  have h := watchLoop_classifies E cid n k i₀ 0 (by simpa using hk) hrun hstop
  rw [watchContainer]
  exact h.trans (by rfl)

/-- Engine for the C3 witness: every container reports running on the
first two inspects and stopped with exit code 7 from the third on. -/
def stopSevenEngine : Engine :=
  ⟨fun _ => .ok (), fun _ => .ok ⟨"built", ⟨false, 0⟩⟩, fun _ => .ok [],
   fun _ _ => .ok (), fun _ => .ok (),
   fun cid i => if i < 2 then .ok ⟨cid, ⟨true, 0⟩⟩ else .ok ⟨cid, ⟨false, 7⟩⟩,
   fun _ => .ok ()⟩

/-- C3 witness: under `stopSevenEngine` the supervisor returns the
non-zero-exit error carrying 7. -/
theorem watchContainer_classifies_exit_witness :
    (watchContainer stopSevenEngine "c" 0).1 = .error (.nonZeroExit 7) := by
  have h := watchContainer_classifies_exit stopSevenEngine "c" 0 2 7
    (by decide)
    (by intro j hj; interval_cases j <;> exact ⟨⟨"c", ⟨true, 0⟩⟩, rfl, rfl⟩)
    ⟨⟨"c", ⟨false, 7⟩⟩, rfl, rfl, rfl⟩
  rw [if_neg (by norm_num), if_neg (by norm_num)] at h
  exact h

theorem watchLoop_timeout (E : Engine) (cid : String) :
    ∀ (m i r : Nat), r + watchDuration * m ≤ maxProcessDuration →
    maxProcessDuration < r + watchDuration * (m + 1) →
    (∀ j, j < m → ∃ c : Container,
      E.inspectContainer cid (i + j) = .ok c ∧ c.state.running = true) →
    (watchLoop E cid i r).1 = .error .errMaxTimeRunning ∧
    (watchLoop E cid i r).2.length = m := by
  intro m
  induction m with
  | zero =>
    intro i r h1 h2 hrun
    rw [watchLoop]
    rw [if_pos (by simp only [watchDuration, maxProcessDuration] at *; omega)]
    simp
  | succ m ih =>
    intro i r h1 h2 hrun
    rcases hrun 0 (Nat.succ_pos m) with ⟨c, hc, hrunning⟩
    rw [watchLoop]
    rw [if_neg (by simp only [watchDuration, maxProcessDuration] at *; omega)]
    rw [Nat.add_zero] at hc
    rw [hc]
    simp only [hrunning, if_true]
    have hih := ih (i + 1) (r + watchDuration)
      (by simp only [watchDuration, maxProcessDuration] at *; omega)
      (by simp only [watchDuration, maxProcessDuration] at *; omega)
      (by
        intro j hj
        have := hrun (j + 1) (by omega)
        rwa [show i + (j + 1) = i + 1 + j by omega] at this)
    simp only [consTrace, List.length_cons]
    exact ⟨hih.1, by simp [hih.2]⟩

/-- C4: when every inspect performed before the ceiling reports the
container still running, the poll loop — which sleeps the fixed
`watchDuration` (100 ms) each iteration and adds it to the accumulated
elapsed time — aborts with `ErrMaxTimeRunning` (`TimedOut`) as soon as
the accumulated time exceeds the fixed `maxProcessDuration` (24 h)
ceiling, before performing another inspect: nothing is assumed about
inspects past the ceiling, and the trace shows exactly
`maxProcessDuration / watchDuration` (864000) inspects were issued. -/
theorem watchContainer_times_out (E : Engine) (cid : String) (i₀ : Nat)
    (hrun : ∀ j, watchDuration * (j + 1) ≤ maxProcessDuration →
      ∃ c : Container, E.inspectContainer cid (i₀ + j) = .ok c ∧ c.state.running = true) :
    (watchContainer E cid i₀).1 = .error .errMaxTimeRunning ∧
    (watchContainer E cid i₀).2.length = maxProcessDuration / watchDuration := by
  have h := watchLoop_timeout E cid (maxProcessDuration / watchDuration) i₀ 0
    (by norm_num [watchDuration, maxProcessDuration])
    (by norm_num [watchDuration, maxProcessDuration])
    (fun j hj => hrun j (by simp only [watchDuration, maxProcessDuration] at *; omega))
  rw [watchContainer]
  exact h

/-- Engine for the C4 witness: every inspect reports the container
running. -/
def neverStopsEngine : Engine :=
  ⟨fun _ => .ok (), fun _ => .ok ⟨"built", ⟨true, 0⟩⟩, fun _ => .ok [],
   fun _ _ => .ok (), fun _ => .ok (), fun cid _ => .ok ⟨cid, ⟨true, 0⟩⟩,
   fun _ => .ok ()⟩

/-- C4 witness: under `neverStopsEngine` supervision aborts with
`ErrMaxTimeRunning`. -/
theorem watchContainer_times_out_witness :
    (watchContainer neverStopsEngine "c" 0).1 = .error .errMaxTimeRunning :=
  (watchContainer_times_out neverStopsEngine "c" 0
    (fun _ _ => ⟨⟨"c", ⟨true, 0⟩⟩, rfl, rfl⟩)).1

/-- C5: for a completed run (one in which `Run` returned nil), the Reaper
removes the container — i.e. the run issues a `RemoveContainer` call — if
and only if the run owned the container (no pre-existing container
identifier was supplied, `j.Container == ""`) and the delete flag is
true.  An externally supplied container is never removed regardless of
the flag, and an owned container is never removed when the flag is
false. -/
theorem run_removes_iff_owned_and_delete (j : RunJob) (E : Engine)
    (fs : String → Except String (List String)) (tok : String → List String)
    (hrun : (Run j E fs tok).1 = .ok ()) :
    ((∃ o, EngineCall.removeContainer o ∈ (Run j E fs tok).2) ↔
      (j.container = "" ∧ j.delete = true)) := by
  by_cases hb : j.image ≠ "" ∧ j.container = ""
  · rcases hp : pullImage j E with ⟨rp, trp⟩
    have htrp : trp = [EngineCall.pullImage j.image] := by
      have h := pullImage_trace j E
      rw [hp] at h
      exact h
    cases rp with
    | error e =>
      have hRun : Run j E fs tok = (.error e, trp) := by
        simp only [Run, if_pos hb, hp]
      rw [hRun] at hrun
      exact absurd hrun (by simp)
    | ok u =>
      rcases hbld : buildContainer j E fs tok with ⟨rb, trb⟩
      cases rb with
      | fail copt e =>
        have hRun : Run j E fs tok = (.error e, trp ++ trb) := by
          simp only [Run, if_pos hb, hp, hbld]
        rw [hRun] at hrun
        exact absurd hrun (by simp)
      | ok c =>
        have hRun : Run j E fs tok = runFrom j E c 0 (trp ++ trb) := by
          simp only [Run, if_pos hb, hp, hbld]
        rw [hRun] at hrun ⊢
        refine runFrom_remove_iff j E c 0 (trp ++ trb) ?_ hrun
        intro o ho
        rcases List.mem_append.mp ho with ho | ho
        · rw [htrp] at ho
          simp at ho
        · rcases buildContainer_calls j E fs tok _ (by rw [hbld]; exact ho) with
            ⟨cfg, h⟩ | ⟨nm, h⟩ | ⟨a, b, h⟩ <;> simp at h
  · cases hg : E.inspectContainer j.container 0 with
    | error e =>
      have hget : getContainer E j.container 0 =
          (.error (.rawError e), [.inspectContainer j.container]) := by
        simp [getContainer, hg]
      have hRun : Run j E fs tok =
          (.error (.rawError e), [.inspectContainer j.container]) := by
        simp only [Run, if_neg hb, hget]
      rw [hRun] at hrun
      exact absurd hrun (by simp)
    | ok c =>
      have hget : getContainer E j.container 0 =
          (.ok c, [.inspectContainer j.container]) := by
        simp [getContainer, hg]
      have hRun : Run j E fs tok =
          runFrom j E c 1 [.inspectContainer j.container] := by
        simp only [Run, if_neg hb, hget]
      rw [hRun] at hrun ⊢
      refine runFrom_remove_iff j E c 1 _ ?_ hrun
      intro o ho
      simp at ho

/-- C8: when the env and volume specs parse, container creation succeeds
and a network is configured, a failure while connecting the new container
to a matched network is reported as an error, yet the created container
is not rolled back: `buildContainer` returns the container together with
the connect error (Go `return c, fmt.Errorf(...)`). -/
theorem buildContainer_connect_failure_returns_container
    (j : RunJob) (E : Engine) (fs : String → Except String (List String))
    (tok : String → List String) (c : Container)
    (hef : j.envFiles = "" ∨ ∃ l, parseEnvsFromFiles fs j.envFiles = .ok l)
    (hvol : j.volumes = "" ∨ ∃ vs, parseVolumeSpec j.volumes = .ok vs)
    (hcreate : ∀ cfg, E.createContainer cfg = .ok c)
    (hnet : j.network ≠ "")
    (networks : List Network)
    (hlist : E.filteredListNetworks j.network = .ok networks)
    (er : JobError)
    (hconn : (connectLoop E c.id networks).1 = some er) :
    (buildContainer j E fs tok).1 = .fail (some c) er := by
  have h1 : (if j.env ≠ "" then parseEnvSpecs (goSplit j.env ',') else Except.ok []) =
      Except.ok ([] : List String) := by
    by_cases he : j.env = "" <;> simp [he, parseEnvSpecs_ok]
  have h2 : ∃ l, (if j.envFiles ≠ "" then parseEnvsFromFiles fs j.envFiles
      else Except.ok []) = Except.ok l := by
    rcases hef with hef | ⟨l, hl⟩
    · exact ⟨[], by simp [hef]⟩
    · by_cases hef2 : j.envFiles = ""
      · exact ⟨[], by simp [hef2]⟩
      · exact ⟨l, by rw [if_pos hef2]; exact hl⟩
  rcases h2 with ⟨l, h2⟩
  have h3 : ∃ vs, (if j.volumes ≠ "" then parseVolumeSpec j.volumes
      else Except.ok []) = Except.ok vs := by
    rcases hvol with hvol | ⟨vs, hv⟩
    · exact ⟨[], by simp [hvol]⟩
    · by_cases hvol2 : j.volumes = ""
      · exact ⟨[], by simp [hvol2]⟩
      · exact ⟨vs, by rw [if_pos hvol2]; exact hv⟩
  rcases h3 with ⟨vs, h3⟩
  rcases hcl : connectLoop E c.id networks with ⟨ropt, tr⟩
  rw [hcl] at hconn
  simp at hconn
  subst hconn
  simp only [buildContainer, h1, h2, h3, hcreate, if_pos hnet, hlist, hcl]

/-- Engine for the C8 witness: creation succeeds, one network matches,
connecting to it fails. -/
def connectFailEngine : Engine :=
  ⟨fun _ => .ok (), fun _ => .ok ⟨"c8", ⟨false, 0⟩⟩, fun _ => .ok [⟨"n1"⟩],
   fun _ _ => .error "boom", fun _ => .ok (), fun cid _ => .ok ⟨cid, ⟨false, 0⟩⟩,
   fun _ => .ok ()⟩

/-- A job spec like `jobPlain` but attached to network `"net"`. -/
def jobNet : RunJob := ⟨"cmd", "root", false, true, "img", "net", "", "", "", ""⟩

/-- C8 witness: under `connectFailEngine` the build returns both the
created container and the connect error. -/
theorem buildContainer_connect_failure_returns_container_witness :
    (buildContainer jobNet connectFailEngine noFs oneTok).1 =
      .fail (some ⟨"c8", ⟨false, 0⟩⟩) (.connectError "boom") :=
  buildContainer_connect_failure_returns_container jobNet connectFailEngine noFs oneTok
    ⟨"c8", ⟨false, 0⟩⟩ (Or.inl rfl) (Or.inl rfl) (fun _ => rfl) (by decide)
    [⟨"n1"⟩] rfl (.connectError "boom") rfl

/-- C9: when a network name is configured and listing the networks by
that name fails, `buildContainer` silently ignores the failure
(`if networks, err := ...; err == nil`): it returns the created container
with no error and attempts no network connection. -/
theorem buildContainer_list_failure_ignored
    (j : RunJob) (E : Engine) (fs : String → Except String (List String))
    (tok : String → List String) (c : Container)
    (hef : j.envFiles = "" ∨ ∃ l, parseEnvsFromFiles fs j.envFiles = .ok l)
    (hvol : j.volumes = "" ∨ ∃ vs, parseVolumeSpec j.volumes = .ok vs)
    (hcreate : ∀ cfg, E.createContainer cfg = .ok c)
    (hnet : j.network ≠ "")
    (e : String)
    (hlist : E.filteredListNetworks j.network = .error e) :
    (buildContainer j E fs tok).1 = .ok c ∧
    ∀ nid cid2, EngineCall.connectNetwork nid cid2 ∉ (buildContainer j E fs tok).2 := by
  have h1 : (if j.env ≠ "" then parseEnvSpecs (goSplit j.env ',') else Except.ok []) =
      Except.ok ([] : List String) := by
    by_cases he : j.env = "" <;> simp [he, parseEnvSpecs_ok]
  have h2 : ∃ l, (if j.envFiles ≠ "" then parseEnvsFromFiles fs j.envFiles
      else Except.ok []) = Except.ok l := by
    rcases hef with hef | ⟨l, hl⟩
    · exact ⟨[], by simp [hef]⟩
    · by_cases hef2 : j.envFiles = ""
      · exact ⟨[], by simp [hef2]⟩
      · exact ⟨l, by rw [if_pos hef2]; exact hl⟩
  rcases h2 with ⟨l, h2⟩
  have h3 : ∃ vs, (if j.volumes ≠ "" then parseVolumeSpec j.volumes
      else Except.ok []) = Except.ok vs := by
    rcases hvol with hvol | ⟨vs, hv⟩
    · exact ⟨[], by simp [hvol]⟩
    · by_cases hvol2 : j.volumes = ""
      · exact ⟨[], by simp [hvol2]⟩
      · exact ⟨vs, by rw [if_pos hvol2]; exact hv⟩
  rcases h3 with ⟨vs, h3⟩
  simp only [buildContainer, h1, h2, h3, hcreate, if_pos hnet, hlist]
  refine ⟨trivial, ?_⟩
  intro nid cid2
  simp

/-- Engine for the C9 witness: creation succeeds but listing networks
fails. -/
def listFailEngine : Engine :=
  ⟨fun _ => .ok (), fun _ => .ok ⟨"c9", ⟨false, 0⟩⟩, fun _ => .error "down",
   fun _ _ => .ok (), fun _ => .ok (), fun cid _ => .ok ⟨cid, ⟨false, 0⟩⟩,
   fun _ => .ok ()⟩

/-- C9 witness: under `listFailEngine` the build succeeds with the
created container despite the listing failure. -/
theorem buildContainer_list_failure_ignored_witness :
    (buildContainer jobNet listFailEngine noFs oneTok).1 = .ok ⟨"c9", ⟨false, 0⟩⟩ :=
  (buildContainer_list_failure_ignored jobNet listFailEngine noFs oneTok
    ⟨"c9", ⟨false, 0⟩⟩ (Or.inl rfl) (Or.inl rfl) (fun _ => rfl) (by decide)
    "down" rfl).1

/-- C10 witness: a job with inline env `"A=B,C"`; the single
container-creation request issued by `buildContainer` carries the empty
environment list, by the theorem applied at that concrete request. -/
theorem parseEnvSpecs_empty_env_to_create_witness :
    (⟨"img", false, true, true, false, ["cmd"], "root", [], []⟩ : DockerConfig).env = [] :=
  parseEnvSpecs_empty_env_to_create.2
    ⟨"cmd", "root", false, true, "img", "", "", "", "A=B,C", ""⟩ okEngine noFs oneTok
    ⟨"img", false, true, true, false, ["cmd"], "root", [], []⟩ (by decide)

/-- C5 witness: a completed owned run with the delete flag on under
`okEngine` does issue a removal, by the theorem's right-to-left
direction. -/
theorem run_removes_iff_owned_and_delete_witness :
    ∃ o, EngineCall.removeContainer o ∈ (Run jobPlain okEngine noFs oneTok).2 := by
  have hw : watchContainer okEngine "built" 0 = (.ok (), [.inspectContainer "built"]) := by
    have h := watchLoop_stop_now okEngine "built" 0 0
      (by norm_num [watchDuration, maxProcessDuration]) ⟨"built", ⟨false, 0⟩⟩ rfl rfl
    simpa [watchContainer, watchClassify] using h
  have h1 : Run jobPlain okEngine noFs oneTok =
      runFrom jobPlain okEngine ⟨"built", ⟨false, 0⟩⟩ 0
        [EngineCall.pullImage "img",
         EngineCall.createContainer ⟨"img", false, true, true, false, ["cmd"], "root", [], []⟩] :=
    rfl
  have h2 : (runFrom jobPlain okEngine ⟨"built", ⟨false, 0⟩⟩ 0
      [EngineCall.pullImage "img",
       EngineCall.createContainer ⟨"img", false, true, true, false, ["cmd"], "root", [], []⟩]).1 =
      .ok () := by
    simp only [runFrom, hw,
      show startContainer okEngine ⟨"built", ⟨false, 0⟩⟩ =
        (.ok (), [.startContainer "built"]) from rfl,
      show deleteContainer jobPlain okEngine "built" =
        (.ok (), [.removeContainer ⟨"built", false, false⟩]) from rfl]
    rfl
  have hrun : (Run jobPlain okEngine noFs oneTok).1 = .ok () := by
    rw [h1]
    exact h2
  exact (run_removes_iff_owned_and_delete jobPlain okEngine noFs oneTok hrun).mpr ⟨rfl, rfl⟩

/-- A job spec with neither an image nor an existing container
identifier set. -/
def jobEmpty : RunJob := ⟨"cmd", "root", false, true, "", "", "", "", "", ""⟩

/-- C7 counterexample: the claim says a spec with neither image nor
container set surfaces a configuration error before any engine call, but
`Run` performs no such check: it takes the existing-container branch and
inspects the empty identifier.  Under an engine that resolves the empty
identifier the run even completes with no error at all, and its trace
contains the inspect call. -/
theorem run_no_config_check_example :
    (Run jobEmpty okEngine noFs oneTok).1 = .ok () ∧
    EngineCall.inspectContainer "" ∈ (Run jobEmpty okEngine noFs oneTok).2 := by
  have hw : watchContainer okEngine "" 1 = (.ok (), [.inspectContainer ""]) := by
    have h := watchLoop_stop_now okEngine "" 1 0
      (by norm_num [watchDuration, maxProcessDuration]) ⟨"", ⟨false, 0⟩⟩ rfl rfl
    simpa [watchContainer, watchClassify] using h
  have h1 : Run jobEmpty okEngine noFs oneTok =
      runFrom jobEmpty okEngine ⟨"", ⟨false, 0⟩⟩ 1 [.inspectContainer ""] := rfl
  have h2 : runFrom jobEmpty okEngine ⟨"", ⟨false, 0⟩⟩ 1 [.inspectContainer ""] =
      (.ok (), [.inspectContainer "", .startContainer "", .inspectContainer "",
        .removeContainer ⟨"", false, false⟩]) := by
    simp only [runFrom, hw,
      show startContainer okEngine ⟨"", ⟨false, 0⟩⟩ =
        (.ok (), [.startContainer ""]) from rfl,
      show deleteContainer jobEmpty okEngine "" =
        (.ok (), [.removeContainer ⟨"", false, false⟩]) from rfl]
    rfl
  rw [h1, h2]
  exact ⟨rfl, by simp⟩

/-- C7 (amended): with neither image nor container identifier set, `Run`
performs no configuration check: it takes the existing-container path,
so its first engine call is an inspect of the empty container
identifier, and when that inspect fails the run surfaces the engine's
lookup error unchanged (not a configuration error). -/
theorem run_both_absent_inspects_empty_id (j : RunJob) (E : Engine)
    (fs : String → Except String (List String)) (tok : String → List String)
    (h1 : j.image = "") (h2 : j.container = "") :
    (Run j E fs tok).2.head? = some (.inspectContainer "") ∧
    (∀ e, E.inspectContainer "" 0 = .error e →
      (Run j E fs tok).1 = .error (.rawError e)) := by
  have hb : ¬(j.image ≠ "" ∧ j.container = "") := by simp [h1]
  constructor
  · cases hg : E.inspectContainer j.container 0 with
    | error e =>
      have hget : getContainer E j.container 0 =
          (.error (.rawError e), [.inspectContainer j.container]) := by
        simp [getContainer, hg]
      have hRun : Run j E fs tok =
          (.error (.rawError e), [.inspectContainer j.container]) := by
        simp only [Run, if_neg hb, hget]
      rw [hRun, h2]
      rfl
    | ok c =>
      have hget : getContainer E j.container 0 =
          (.ok c, [.inspectContainer j.container]) := by
        simp [getContainer, hg]
      have hRun : Run j E fs tok =
          runFrom j E c 1 [.inspectContainer j.container] := by
        simp only [Run, if_neg hb, hget]
      rcases runFrom_trace_prefix j E c 1 [.inspectContainer j.container] with ⟨rest, hr⟩
      rw [hRun, hr, h2]
      rfl
  · intro e he
    have hget : getContainer E j.container 0 =
        (.error (.rawError e), [.inspectContainer j.container]) := by
      simp [getContainer, h2, he]
    have hRun : Run j E fs tok =
        (.error (.rawError e), [.inspectContainer j.container]) := by
      simp only [Run, if_neg hb, hget]
    rw [hRun]

/-- Engine for the C7 witness: inspecting any container fails with a
lookup error. -/
def inspectFailEngine : Engine :=
  ⟨fun _ => .ok (), fun _ => .ok ⟨"x", ⟨false, 0⟩⟩, fun _ => .ok [],
   fun _ _ => .ok (), fun _ => .ok (), fun _ _ => .error "no such container",
   fun _ => .ok ()⟩

/-- C7 witness: with both fields empty and an engine whose inspect
fails, the run surfaces the raw lookup error. -/
theorem run_both_absent_inspects_empty_id_witness :
    (Run jobEmpty inspectFailEngine noFs oneTok).1 =
      .error (.rawError "no such container") :=
  (run_both_absent_inspects_empty_id jobEmpty inspectFailEngine noFs oneTok rfl rfl).2
    "no such container" rfl
